import Mathlib

/-!
Verification of the Phosphor Icons MCP server (src/index.ts).

The development shallowly embeds the request pipeline of the server:
name sanitization, size validation, asset URL construction, the SVG
attribute rewrites for color and size, and the get-icon and
get-multiple-icons handlers.  Program strings are modelled as lists of
characters (`Str`); the network fetch is modelled as an oracle mapping
a URL to an outcome; JavaScript numbers that reach the size check are
modelled as rationals.  Regex replacement is embedded by a left-to-right
scanner for the only regex shape the program uses: a literal prefix
followed by a run of characters excluding a stop character, followed by
the stop character (for example fill="[^"]*" with stop character the
double quote).
-/

/-- Strings of the embedded program, as lists of characters. -/
abbrev Str := List Char

/-- View a Lean string literal as an embedded string. -/
def str (s : String) : Str := s.data

/-- ASCII whitespace removed by the embedding of JavaScript trim():
space, tab, LF, VT, FF, CR (codes 32, 9, 10, 11, 12, 13). -/
def isWsChar (c : Char) : Bool :=
  c.toNat == 32 || c.toNat == 9 || c.toNat == 10 ||
    c.toNat == 11 || c.toNat == 12 || c.toNat == 13

/-- The sanitizer character class [a-z0-9-]: codes 97..122, 48..57 and 45. -/
def allowedChar (c : Char) : Bool :=
  (97 ≤ c.toNat && c.toNat ≤ 122) || (48 ≤ c.toNat && c.toNat ≤ 57) || c.toNat == 45

/-- ASCII uppercase (codes 65..90), the range changed by toLowerCase. -/
def isUpperChar (c : Char) : Bool := 65 ≤ c.toNat && c.toNat ≤ 90

/-- Embedding of JavaScript toLowerCase() on one character (ASCII range). -/
def lowerChar (c : Char) : Char :=
  if isUpperChar c then Char.ofNat (c.toNat + 32) else c

/-- Embedding of s.trim(): drop whitespace from both ends. -/
def jsTrim (s : Str) : Str :=
  ((s.dropWhile isWsChar).reverse.dropWhile isWsChar).reverse

/-- Embedding of s.toLowerCase(). -/
def jsToLower (s : Str) : Str := s.map lowerChar

/-- Embedding of name.trim().toLowerCase().replace(/[^a-z0-9-]/g, "")
from the get-icon and get-multiple-icons handlers. -/
def sanitize (s : Str) : Str := (jsToLower (jsTrim s)).filter allowedChar

/-- The two name-validation failures of the get-icon handler: the
required/non-empty check and the kebab-case sanitization check. -/
inductive NameError where
  | empty : NameError
  | invalid : NameError
deriving DecidableEq

/-- Result of the name validation of the get-icon handler. -/
inductive NameCheckResult where
  | error : NameError → NameCheckResult
  | ok : Str → NameCheckResult
deriving DecidableEq

/-- Name validation of the get-icon handler: reject when the trimmed
name is empty, then reject when the sanitized name differs from
name.toLowerCase(); otherwise continue with the sanitized name. -/
def nameCheck (name : Str) : NameCheckResult :=
  if (jsTrim name).length = 0 then .error .empty
  else if sanitize name ≠ jsToLower name then .error .invalid
  else .ok (sanitize name)

/-- The closed weight enumeration. -/
inductive Weight where
  | thin : Weight
  | light : Weight
  | regular : Weight
  | bold : Weight
  | fill : Weight
  | duotone : Weight
deriving DecidableEq

/-- The weight name as it appears in the asset path. -/
def Weight.toStr : Weight → Str
  | .thin => str "thin"
  | .light => str "light"
  | .regular => str "regular"
  | .bold => str "bold"
  | .fill => str "fill"
  | .duotone => str "duotone"

/-- Base URL for fetching the icon assets. -/
def PHOSPHOR_CORE_RAW_BASE : Str :=
  str "https://raw.githubusercontent.com/phosphor-icons/core/main/assets"

/-- File naming: regular icons have no suffix, other weights have a
-weight suffix before the .svg extension. -/
def iconFileName (sanitizedName : Str) (w : Weight) : Str :=
  if w = Weight.regular then sanitizedName ++ str ".svg"
  else sanitizedName ++ str "-" ++ w.toStr ++ str ".svg"

/-- The fetched URL: base/weight/fileName. -/
def iconUrl (sanitizedName : Str) (w : Weight) : Str :=
  PHOSPHOR_CORE_RAW_BASE ++ str "/" ++ w.toStr ++ str "/" ++ iconFileName sanitizedName w

/-- Outcome of one fetch: HTTP OK with a body, HTTP not-OK, the abort
of the 10 second timeout, or any other thrown transport error. -/
inductive FetchOutcome where
  | ok : Str → FetchOutcome
  | notFound : FetchOutcome
  | timeout : FetchOutcome
  | transportError : Str → FetchOutcome
deriving DecidableEq

/-- Scan for a stop character: on success return the characters before
the first stop together with the rest after it.  This is the matcher
for the regex fragment matching a run of non-stop characters followed
by the stop character. -/
def splitAtStop (stop : Char) : Str → Option (Str × Str)
  | [] => none
  | c :: cs =>
    if c = stop then some ([], cs)
    else
      match splitAtStop stop cs with
      | some (mid, rest) => some (c :: mid, rest)
      | none => none

/-- Try to match, at the head of s, the literal prefix pre followed by
a run of non-stop characters and the stop character.  On success return
the captured run and the remainder of s after the match. -/
def matchAt (pre : Str) (stop : Char) (s : Str) : Option (Str × Str) :=
  if List.isPrefixOf pre s then splitAtStop stop (List.drop pre.length s) else none

/-- Embedding of non-global String.replace for the regex shape above:
replace the first match, leaving everything after it untouched. -/
def replaceFirst (pre : Str) (stop : Char) (repl : Str → Str) : Str → Str
  | [] => []
  | c :: cs =>
    match matchAt pre stop (c :: cs) with
    | some (mid, rest) => repl mid ++ rest
    | none => c :: replaceFirst pre stop repl cs

/-- Fuelled scanner behind the embedding of global String.replace; the
fuel only serves to make the recursion structural and is always
instantiated with the length of the scanned string, which every
recursive call strictly decreases. -/
def replaceAllAux (pre : Str) (stop : Char) (repl : Str → Str) : Nat → Str → Str
  | _, [] => []
  | 0, s => s
  | fuel + 1, c :: cs =>
    match matchAt pre stop (c :: cs) with
    | some (mid, rest) => repl mid ++ replaceAllAux pre stop repl fuel rest
    | none => c :: replaceAllAux pre stop repl fuel cs

/-- Embedding of global String.replace (the /g flag) for the regex
shape above: scan left to right and replace every match, resuming after
the replaced segment. -/
def replaceAll (pre : Str) (stop : Char) (repl : Str → Str) (s : Str) : Str :=
  replaceAllAux pre stop repl s.length s

/-- Embedding of s.includes(pat). -/
def containsSub (pat : Str) : Str → Bool
  | [] => pat.isEmpty
  | c :: cs => List.isPrefixOf pat (c :: cs) || containsSub pat cs

/-- Replacement text for one fill attribute. -/
def fillRepl (color : Str) : Str := str "fill=\"" ++ color ++ str "\""

/-- Replacement text for one stroke attribute. -/
def strokeRepl (color : Str) : Str := str "stroke=\"" ++ color ++ str "\""

/-- Color application of both handlers: for the fill weight replace
every fill attribute value; for duotone replace every fill and every
stroke attribute value; for the remaining weights likewise replace
every fill and every stroke attribute value. -/
def applyColor (w : Weight) (color : Str) (s : Str) : Str :=
  if w = Weight.fill then
    replaceAll (str "fill=\"") '"' (fun _ => fillRepl color) s
  else if w = Weight.duotone then
    replaceAll (str "stroke=\"") '"' (fun _ => strokeRepl color)
      (replaceAll (str "fill=\"") '"' (fun _ => fillRepl color) s)
  else
    replaceAll (str "stroke=\"") '"' (fun _ => strokeRepl color)
      (replaceAll (str "fill=\"") '"' (fun _ => fillRepl color) s)

/-- Size application of both handlers: when no width= substring occurs,
rewrite the first svg open tag, appending width and height attributes
after its attribute list; otherwise rewrite the first width attribute
and then the first height attribute. -/
def applySize (sz : Str) (s : Str) : Str :=
  if containsSub (str "width=") s = false then
    replaceFirst (str "<svg") '>'
      (fun mid =>
        str "<svg" ++ mid ++ str " width=\"" ++ sz ++ str "\" height=\"" ++ sz ++
          str "\"" ++ str ">") s
  else
    replaceFirst (str "height=\"") '"' (fun _ => str "height=\"" ++ sz ++ str "\"")
      (replaceFirst (str "width=\"") '"' (fun _ => str "width=\"" ++ sz ++ str "\"") s)

/-- The color transform guarded by JavaScript truthiness: applied only
when a color is present and non-empty. -/
def applyColorOpt (w : Weight) (color : Option Str) (s : Str) : Str :=
  match color with
  | some c => if c = [] then s else applyColor w c s
  | none => s

/-- The size transform guarded by JavaScript truthiness: applied only
when a size is present and non-zero, with the size rendered to text by
the given renderer. -/
def applySizeOpt (size : Option ℚ) (render : ℚ → Str) (s : Str) : Str :=
  match size with
  | some q => if q = 0 then s else applySize (render q) s
  | none => s

/-- Embedding of the size validation shared by both handlers:
size !== undefined && (size <= 0 || size > 4096). -/
def sizeErr : Option ℚ → Bool
  | none => false
  | some q => decide (q ≤ 0) || decide ((4096 : ℚ) < q)

/-- The observable outcomes of the get-icon handler. -/
inductive IconResult where
  | errorEmptyName : IconResult
  | errorInvalidName : IconResult
  | errorInvalidSize : IconResult
  | errorTimeout : IconResult
  | errorNotFound : IconResult
  | errorInvalidContent : IconResult
  | errorTransport : Str → IconResult
  | success : Str → IconResult
deriving DecidableEq

/-- The get-icon handler: validate the name, validate the size, resolve
the URL from the sanitized name and selected weight, fetch, validate
that the body looks like SVG, then apply the color and size transforms.
The success payload is the SVG text embedded in the response. -/
def getIcon (defaultWeight : Weight) (fetch : Str → FetchOutcome) (name : Str)
    (weight : Option Weight) (color : Option Str) (size : Option ℚ)
    (render : ℚ → Str) : IconResult :=
  match nameCheck name with
  | .error .empty => .errorEmptyName
  | .error .invalid => .errorInvalidName
  | .ok sanitizedName =>
    if sizeErr size then .errorInvalidSize
    else
      let selectedWeight := weight.getD defaultWeight
      match fetch (iconUrl sanitizedName selectedWeight) with
      | .timeout => .errorTimeout
      | .transportError msg => .errorTransport msg
      | .notFound => .errorNotFound
      | .ok body =>
        if decide (body = []) || !(List.isPrefixOf (str "<svg") (jsTrim body)) then
          .errorInvalidContent
        else
          .success (applySizeOpt size render (applyColorOpt selectedWeight color body))

/-- One entry of the get-multiple-icons results list, tagged with the
name it was produced for. -/
inductive BatchEntry where
  | invalidName : Str → BatchEntry
  | timeout : Str → BatchEntry
  | notFound : Str → BatchEntry
  | fetchError : Str → Str → BatchEntry
  | success : Str → Str → BatchEntry
deriving DecidableEq

/-- One loop iteration of the get-multiple-icons handler: check the
name for emptiness only, sanitize it without any rejection check, fetch
the URL built from the sanitized name, and on an OK response apply the
transforms and record a success entry without validating the body. -/
def batchItem (selectedWeight : Weight) (fetch : Str → FetchOutcome)
    (color : Option Str) (size : Option ℚ) (render : ℚ → Str) (name : Str) :
    BatchEntry :=
  if (jsTrim name).length = 0 then .invalidName name
  else
    let sanitizedName := sanitize name
    match fetch (iconUrl sanitizedName selectedWeight) with
    | .timeout => .timeout name
    | .transportError msg => .fetchError name msg
    | .notFound => .notFound name
    | .ok body =>
      .success name (applySizeOpt size render (applyColorOpt selectedWeight color body))

/-- The observable outcomes of the get-multiple-icons handler. -/
inductive BatchResult where
  | errorEmptyNames : BatchResult
  | errorTooMany : BatchResult
  | errorInvalidSize : BatchResult
  | ok : List BatchEntry → BatchResult
deriving DecidableEq

/-- The get-multiple-icons handler: validate the names list and the
size, then process each name independently, accumulating one entry per
name in input order. -/
def getMultipleIcons (defaultWeight : Weight) (fetch : Str → FetchOutcome)
    (names : List Str) (weight : Option Weight) (color : Option Str)
    (size : Option ℚ) (render : ℚ → Str) : BatchResult :=
  if names.length = 0 then .errorEmptyNames
  else if 50 < names.length then .errorTooMany
  else if sizeErr size then .errorInvalidSize
  else .ok (names.map (batchItem (weight.getD defaultWeight) fetch color size render))

-- ## Character-level facts

theorem allowedChar_not_upper {c : Char} (h : allowedChar c = true) : isUpperChar c = false := by
  simp only [allowedChar, Bool.or_eq_true, Bool.and_eq_true, decide_eq_true_eq, beq_iff_eq] at h
  rw [isUpperChar, Bool.eq_false_iff]
  simp only [ne_eq, Bool.and_eq_true, decide_eq_true_eq, not_and]
  omega

theorem isWsChar_not_upper {c : Char} (h : isWsChar c = true) : isUpperChar c = false := by
  simp only [isWsChar, Bool.or_eq_true, beq_iff_eq] at h
  rw [isUpperChar, Bool.eq_false_iff]
  simp only [ne_eq, Bool.and_eq_true, decide_eq_true_eq, not_and]
  omega

theorem allowedChar_not_ws {c : Char} (h : allowedChar c = true) : isWsChar c = false := by
  simp only [allowedChar, Bool.or_eq_true, Bool.and_eq_true, decide_eq_true_eq, beq_iff_eq] at h
  rw [isWsChar, Bool.eq_false_iff]
  simp only [ne_eq, Bool.or_eq_true, beq_iff_eq, not_or]
  omega

theorem lowerChar_of_allowed {c : Char} (h : allowedChar c = true) : lowerChar c = c := by
  rw [lowerChar, allowedChar_not_upper h]
  simp

theorem lowerChar_of_ws {c : Char} (h : isWsChar c = true) : lowerChar c = c := by
  rw [lowerChar, isWsChar_not_upper h]
  simp

theorem isWsChar_false_of_allowed_lower {c : Char} (h : allowedChar (lowerChar c) = true) :
    isWsChar c = false := by
  cases hw : isWsChar c with
  | false => rfl
  | true =>
    rw [lowerChar_of_ws hw] at h
    rw [allowedChar_not_ws h] at hw
    cases hw

-- ## Trim and filter facts

theorem dropWhile_eq_self_of (p : Char → Bool) {l : Str} (h : ∀ c ∈ l, p c = false) :
    l.dropWhile p = l := by
  cases l with
  | nil => rfl
  | cons a t => simp [List.dropWhile_cons, h a (by simp)]

theorem jsTrim_eq_self {s : Str} (h : ∀ c ∈ s, isWsChar c = false) : jsTrim s = s := by
  unfold jsTrim
  rw [dropWhile_eq_self_of _ h, dropWhile_eq_self_of, List.reverse_reverse]
  intro c hc
  exact h c (by simpa using hc)

theorem jsTrim_length_le (s : Str) : (jsTrim s).length ≤ s.length := by
  have h1 : (s.dropWhile isWsChar) <:+ s := List.dropWhile_suffix isWsChar
  have h2 : ((s.dropWhile isWsChar).reverse.dropWhile isWsChar) <:+
      (s.dropWhile isWsChar).reverse := List.dropWhile_suffix isWsChar
  have l1 := h1.sublist.length_le
  have l2 := h2.sublist.length_le
  simp only [jsTrim, List.length_reverse] at *
  omega

theorem jsTrim_eq_of_length {s : Str} (h : (jsTrim s).length = s.length) : jsTrim s = s := by
  have h1 : (s.dropWhile isWsChar) <:+ s := List.dropWhile_suffix isWsChar
  have h2 : ((s.dropWhile isWsChar).reverse.dropWhile isWsChar) <:+
      (s.dropWhile isWsChar).reverse := List.dropWhile_suffix isWsChar
  have l1 := h1.sublist.length_le
  have l2 := h2.sublist.length_le
  have hrev : (s.dropWhile isWsChar).reverse.length = (s.dropWhile isWsChar).length := by
    simp
  have hlen : (jsTrim s).length =
      ((s.dropWhile isWsChar).reverse.dropWhile isWsChar).length := by
    simp [jsTrim]
  have e2 : (s.dropWhile isWsChar).reverse.dropWhile isWsChar =
      (s.dropWhile isWsChar).reverse := by
    apply h2.sublist.eq_of_length
    omega
  have e1 : s.dropWhile isWsChar = s := by
    apply h1.sublist.eq_of_length
    omega
  rw [jsTrim, e2, List.reverse_reverse, e1]

theorem filter_length_lt {p : Char → Bool} {l : Str} {x : Char} (hx : x ∈ l)
    (hpx : p x = false) : (l.filter p).length < l.length := by
  have hsub := l.filter_sublist (p := p)
  rcases Nat.lt_or_ge (l.filter p).length l.length with h1 | h1
  · exact h1
  · have he : l.filter p = l := hsub.eq_of_length (Nat.le_antisymm hsub.length_le h1)
    have := List.filter_eq_self.mp he x hx
    simp [hpx] at this

-- ## Prefix matcher facts

theorem isPrefixOf_append_self (l t : Str) : List.isPrefixOf l (l ++ t) = true := by
  induction l with
  | nil => cases t <;> rfl
  | cons c cs ih => simp [List.isPrefixOf, ih]

theorem isPrefixOf_cons_ne {p c : Char} (pre s : Str) (h : c ≠ p) :
    List.isPrefixOf (p :: pre) (c :: s) = false := by
  simp only [List.isPrefixOf, Bool.and_eq_false_iff]
  left
  simp only [beq_eq_false_iff_ne, ne_eq]
  intro hc
  exact h hc.symm

theorem splitAtStop_some_length {stop : Char} {l mid rest : Str}
    (h : splitAtStop stop l = some (mid, rest)) : rest.length < l.length := by
  induction l generalizing mid rest with
  | nil => simp [splitAtStop] at h
  | cons c cs ih =>
    rw [splitAtStop] at h
    by_cases hc : c = stop
    · rw [if_pos hc] at h
      simp only [Option.some.injEq, Prod.mk.injEq] at h
      obtain ⟨-, h2⟩ := h
      subst h2
      simp
    · rw [if_neg hc] at h
      cases hm : splitAtStop stop cs with
      | none => rw [hm] at h; cases h
      | some pr =>
        obtain ⟨m, r⟩ := pr
        rw [hm] at h
        simp only [Option.some.injEq, Prod.mk.injEq] at h
        obtain ⟨-, h2⟩ := h
        subst h2
        have := ih hm
        simp only [List.length_cons]
        omega

theorem splitAtStop_append {stop : Char} {mid rest : Str} (h : stop ∉ mid) :
    splitAtStop stop (mid ++ stop :: rest) = some (mid, rest) := by
  induction mid with
  | nil => simp [splitAtStop]
  | cons c cs ih =>
    have hc : ¬ (c = stop) := fun e => h (by simp [e])
    have hcs : stop ∉ cs := fun hm => h (by simp [hm])
    rw [List.cons_append, splitAtStop, if_neg hc, ih hcs]

theorem matchAt_full {pre : Str} {stop : Char} {mid rest : Str} (h : stop ∉ mid) :
    matchAt pre stop (pre ++ (mid ++ stop :: rest)) = some (mid, rest) := by
  rw [matchAt, isPrefixOf_append_self]
  simp only [if_true]
  rw [List.drop_left]
  exact splitAtStop_append h

theorem matchAt_some_length {pre : Str} {stop : Char} {s mid rest : Str}
    (h : matchAt pre stop s = some (mid, rest)) : rest.length < s.length := by
  rw [matchAt] at h
  by_cases hp : List.isPrefixOf pre s = true
  · rw [if_pos hp] at h
    have h1 := splitAtStop_some_length h
    have h2 : (List.drop pre.length s).length ≤ s.length := by
      simp [List.length_drop]
    omega
  · rw [if_neg hp] at h
    cases h

/-- No match of the scanner pattern begins inside a when it is followed
by rest: at every position of a, matching fails. -/
def noMatchBefore (pre : Str) (stop : Char) (a rest : Str) : Prop :=
  ∀ i, i < a.length → matchAt pre stop (List.drop i a ++ rest) = none

instance (pre : Str) (stop : Char) (a rest : Str) :
    Decidable (noMatchBefore pre stop a rest) :=
  Nat.decidableBallLT a.length fun i _ => matchAt pre stop (List.drop i a ++ rest) = none

theorem noMatchBefore_tail {pre : Str} {stop : Char} {c : Char} {t rest : Str}
    (h : noMatchBefore pre stop (c :: t) rest) : noMatchBefore pre stop t rest := by
  intro i hi
  have := h (i + 1) (by simp only [List.length_cons]; omega)
  simpa using this

-- ## Replacement facts

theorem replaceFirst_cons_none {pre : Str} {stop : Char} {repl : Str → Str} {c : Char}
    {cs : Str} (h : matchAt pre stop (c :: cs) = none) :
    replaceFirst pre stop repl (c :: cs) = c :: replaceFirst pre stop repl cs := by
  rw [replaceFirst, h]

theorem replaceFirst_cons_some {pre : Str} {stop : Char} {repl : Str → Str} {c : Char}
    {cs mid rest : Str} (h : matchAt pre stop (c :: cs) = some (mid, rest)) :
    replaceFirst pre stop repl (c :: cs) = repl mid ++ rest := by
  rw [replaceFirst, h]

theorem replaceFirst_skip {pre : Str} {stop : Char} {repl : Str → Str} {a rest : Str}
    (h : noMatchBefore pre stop a rest) :
    replaceFirst pre stop repl (a ++ rest) = a ++ replaceFirst pre stop repl rest := by
  induction a with
  | nil => simp
  | cons c t ih =>
    have h0 : matchAt pre stop (c :: (t ++ rest)) = none := by
      have := h 0 (by simp)
      simpa using this
    rw [List.cons_append, replaceFirst_cons_none h0, ih (noMatchBefore_tail h),
      List.cons_append]

theorem replaceFirst_match {pre : Str} {stop : Char} {repl : Str → Str} {mid rest : Str}
    (h : stop ∉ mid) :
    replaceFirst pre stop repl (pre ++ (mid ++ stop :: rest)) = repl mid ++ rest := by
  have hm : matchAt pre stop (pre ++ (mid ++ stop :: rest)) = some (mid, rest) :=
    matchAt_full h
  cases hs : pre ++ (mid ++ stop :: rest) with
  | nil => simp at hs
  | cons c cs =>
    rw [hs] at hm
    exact replaceFirst_cons_some hm

theorem replaceAllAux_congr {pre : Str} {stop : Char} {repl : Str → Str} :
    ∀ (f g : Nat) (s : Str), s.length ≤ f → s.length ≤ g →
      replaceAllAux pre stop repl f s = replaceAllAux pre stop repl g s := by
  intro f
  induction f with
  | zero =>
    intro g s hf hg
    have hs : s = [] := List.eq_nil_of_length_eq_zero (Nat.le_zero.mp hf)
    subst hs
    cases g <;> rfl
  | succ f ih =>
    intro g s hf hg
    cases s with
    | nil => cases g <;> rfl
    | cons c cs =>
      cases g with
      | zero => simp at hg
      | succ g =>
        rw [replaceAllAux, replaceAllAux]
        cases hm : matchAt pre stop (c :: cs) with
        | none =>
          have hf2 : cs.length ≤ f := by simp at hf; omega
          have hg2 : cs.length ≤ g := by simp at hg; omega
          dsimp only
          rw [ih g cs hf2 hg2]
        | some pr =>
          obtain ⟨mid, rest⟩ := pr
          have hlen := matchAt_some_length hm
          have hf2 : rest.length ≤ f := by simp at hf hlen; omega
          have hg2 : rest.length ≤ g := by simp at hg hlen; omega
          dsimp only
          rw [ih g rest hf2 hg2]

theorem replaceAll_cons_none {pre : Str} {stop : Char} {repl : Str → Str} {c : Char}
    {cs : Str} (h : matchAt pre stop (c :: cs) = none) :
    replaceAll pre stop repl (c :: cs) = c :: replaceAll pre stop repl cs := by
  rw [replaceAll, List.length_cons, replaceAllAux, h]
  rfl

theorem replaceAll_cons_some {pre : Str} {stop : Char} {repl : Str → Str} {c : Char}
    {cs mid rest : Str} (h : matchAt pre stop (c :: cs) = some (mid, rest)) :
    replaceAll pre stop repl (c :: cs) = repl mid ++ replaceAll pre stop repl rest := by
  rw [replaceAll, List.length_cons, replaceAllAux, h]
  have hlen := matchAt_some_length h
  simp only [List.length_cons] at hlen
  dsimp only
  congr 1
  exact replaceAllAux_congr cs.length rest.length rest (by omega) (le_refl _)

theorem replaceAll_skip {pre : Str} {stop : Char} {repl : Str → Str} {a rest : Str}
    (h : noMatchBefore pre stop a rest) :
    replaceAll pre stop repl (a ++ rest) = a ++ replaceAll pre stop repl rest := by
  induction a with
  | nil => simp
  | cons c t ih =>
    have h0 : matchAt pre stop (c :: (t ++ rest)) = none := by
      have := h 0 (by simp)
      simpa using this
    rw [List.cons_append, replaceAll_cons_none h0, ih (noMatchBefore_tail h),
      List.cons_append]

theorem replaceAll_match {pre : Str} {stop : Char} {repl : Str → Str} {mid rest : Str}
    (h : stop ∉ mid) :
    replaceAll pre stop repl (pre ++ (mid ++ stop :: rest)) =
      repl mid ++ replaceAll pre stop repl rest := by
  have hm : matchAt pre stop (pre ++ (mid ++ stop :: rest)) = some (mid, rest) :=
    matchAt_full h
  cases hs : pre ++ (mid ++ stop :: rest) with
  | nil => simp at hs
  | cons c cs =>
    rw [hs] at hm
    exact replaceAll_cons_some hm

theorem replaceAll_nomatch {pre : Str} {stop : Char} {repl : Str → Str} {s : Str}
    (h : noMatchBefore pre stop s []) : replaceAll pre stop repl s = s := by
  have h2 : replaceAll pre stop repl (s ++ []) = s ++ replaceAll pre stop repl [] :=
    replaceAll_skip h
  simpa [show replaceAll pre stop repl [] = [] from rfl] using h2

theorem containsSub_append_mid (a pat r : Str) : containsSub pat (a ++ (pat ++ r)) = true := by
  induction a with
  | nil =>
    rw [List.nil_append]
    cases hpr : pat ++ r with
    | nil =>
      have hp : pat = [] := (List.append_eq_nil.mp hpr).1
      subst hp
      rfl
    | cons c cs =>
      rw [containsSub, ← hpr, isPrefixOf_append_self]
      simp
  | cons c t ih =>
    rw [List.cons_append, containsSub, ih]
    simp

-- ## Sanitizer facts

theorem sanitize_mem_allowed {s : Str} {c : Char} (hc : c ∈ sanitize s) :
    allowedChar c = true :=
  List.of_mem_filter hc

theorem sanitize_idem_aux (s : Str) : sanitize (sanitize s) = sanitize s := by
  have hall : ∀ c ∈ sanitize s, allowedChar c = true := fun c hc => sanitize_mem_allowed hc
  have htrim : jsTrim (sanitize s) = sanitize s :=
    jsTrim_eq_self (fun c hc => allowedChar_not_ws (hall c hc))
  have hlower : jsToLower (sanitize s) = sanitize s := by
    rw [jsToLower]
    rw [List.map_congr_left (fun c hc => lowerChar_of_allowed (hall c hc))]
    exact List.map_id _
  conv_lhs => rw [sanitize, htrim, hlower]
  exact List.filter_eq_self.mpr hall

theorem nameCheck_invalid_of_disallowed {name : Str}
    (h : ∃ c ∈ jsToLower (jsTrim name), allowedChar c = false) :
    nameCheck name = .error .invalid := by
  obtain ⟨c, hc, hcf⟩ := h
  have hne : ¬ ((jsTrim name).length = 0) := by
    intro h0
    have he : jsTrim name = [] := List.eq_nil_of_length_eq_zero h0
    rw [he] at hc
    simp [jsToLower] at hc
  have hlt : (sanitize name).length < (jsToLower name).length := by
    have h1 : ((jsToLower (jsTrim name)).filter allowedChar).length <
        (jsToLower (jsTrim name)).length := filter_length_lt hc hcf
    have h2 : (jsToLower (jsTrim name)).length = (jsTrim name).length := by
      simp [jsToLower]
    have h3 := jsTrim_length_le name
    have h4 : (jsToLower name).length = name.length := by simp [jsToLower]
    rw [sanitize]
    omega
  have hne2 : sanitize name ≠ jsToLower name := by
    intro e
    rw [e] at hlt
    omega
  rw [nameCheck, if_neg hne, if_pos hne2]

theorem nameCheck_ok_iff (name : Str) :
    nameCheck name = .ok (jsToLower name) ↔
      (jsToLower name ≠ [] ∧ (jsToLower name).all allowedChar = true) := by
  constructor
  · intro h
    rw [nameCheck] at h
    by_cases h1 : (jsTrim name).length = 0
    · rw [if_pos h1] at h
      cases h
    · rw [if_neg h1] at h
      by_cases h2 : sanitize name ≠ jsToLower name
      · rw [if_pos h2] at h
        cases h
      · rw [if_neg h2] at h
        push_neg at h2
        have hf : (sanitize name).length ≤ (jsTrim name).length := by
          have hfl : ((jsToLower (jsTrim name)).filter allowedChar).length ≤
              (jsToLower (jsTrim name)).length := List.length_filter_le _ _
          have hm : (jsToLower (jsTrim name)).length = (jsTrim name).length := by
            simp [jsToLower]
          rw [sanitize]
          omega
        have htr := jsTrim_length_le name
        have heq : (sanitize name).length = name.length := by
          rw [h2]
          simp [jsToLower]
        have htrim_eq : jsTrim name = name := jsTrim_eq_of_length (by omega)
        have hfl : (jsToLower name).filter allowedChar = jsToLower name := by
          have hx : sanitize name = (jsToLower name).filter allowedChar := by
            rw [sanitize, htrim_eq]
          rw [← hx, h2]
        refine ⟨?_, ?_⟩
        · intro hnil
          have hn : name = [] := by
            cases name with
            | nil => rfl
            | cons a t => simp [jsToLower] at hnil
          rw [hn] at h1
          exact h1 rfl
        · rw [List.all_eq_true]
          intro c hc
          exact List.filter_eq_self.mp hfl c hc
  · rintro ⟨hne, hall⟩
    rw [List.all_eq_true] at hall
    have hnws : ∀ c ∈ name, isWsChar c = false := by
      intro c hc
      have hcl : allowedChar (lowerChar c) = true := by
        apply hall
        rw [jsToLower]
        exact List.mem_map_of_mem lowerChar hc
      exact isWsChar_false_of_allowed_lower hcl
    have htrim : jsTrim name = name := jsTrim_eq_self hnws
    have hsan : sanitize name = jsToLower name := by
      rw [sanitize, htrim, List.filter_eq_self.mpr (fun c hc => hall c hc)]
    have hlen : ¬ ((jsTrim name).length = 0) := by
      rw [htrim]
      intro h0
      have he : name = [] := List.eq_nil_of_length_eq_zero h0
      rw [he] at hne
      exact hne rfl
    rw [nameCheck, if_neg hlen, if_neg (by rw [hsan]; exact fun hx => hx rfl), hsan]

-- ## Concrete fixtures for witnesses and counterexamples

/-- A sample SVG body used by concrete witnesses. -/
def svgBody : Str := str "<svg fill=\"currentColor\"><path fill=\"red\" stroke=\"blue\"/></svg>"

/-- A fetch oracle that serves svgBody at the regular-weight URL of the
heart icon and reports not-found elsewhere. -/
def heartOracle : Str → FetchOutcome :=
  fun u => if u = iconUrl (str "heart") Weight.regular then .ok svgBody else .notFound

/-- A fixed renderer for sizes in concrete witnesses. -/
def render0 : ℚ → Str := fun _ => str "32"

-- ## Claims

/-- C9: the sanitizer is idempotent, and its output always consists of
characters from the class [a-z0-9-] only. -/
theorem sanitize_idempotent_and_closed (s : Str) :
    sanitize (sanitize s) = sanitize s ∧ (sanitize s).all allowedChar = true := by
  refine ⟨sanitize_idem_aux s, ?_⟩
  rw [List.all_eq_true]
  exact fun c hc => sanitize_mem_allowed hc

/-- C5: the resolved URL is base/weight/stem.svg, where the filename
stem is the bare sanitized name for the regular weight and gains a
-weight suffix for every other weight; in particular heart resolves to
stems heart, heart-bold and heart-duotone. -/
theorem iconUrl_stem_convention (name : Str) (w : Weight) :
    iconUrl name w =
      PHOSPHOR_CORE_RAW_BASE ++ str "/" ++ w.toStr ++ str "/" ++
        ((if w = Weight.regular then name else name ++ str "-" ++ w.toStr) ++ str ".svg") ∧
    iconFileName (str "heart") Weight.regular = str "heart.svg" ∧
    iconFileName (str "heart") Weight.bold = str "heart-bold.svg" ∧
    iconFileName (str "heart") Weight.duotone = str "heart-duotone.svg" := by
  refine ⟨?_, by decide, by decide, by decide⟩
  rw [iconUrl, iconFileName]
  by_cases hw : w = Weight.regular
  · rw [if_pos hw, if_pos hw]
  · rw [if_neg hw, if_neg hw]

/-- C3: with a color supplied, the fill weight rewrites every fill
attribute value and only performs the fill rewrite, while duotone and
every other weight rewrite every fill and every stroke attribute value;
the fill rewrite is global (a shape with two fill attributes has both
replaced) and text without any fill match is left untouched. -/
theorem applyColor_weight_policy (c : Str) :
    (∀ s, applyColor Weight.fill c s =
        replaceAll (str "fill=\"") '"' (fun _ => fillRepl c) s) ∧
    (∀ w s, w ≠ Weight.fill →
      applyColor w c s =
        replaceAll (str "stroke=\"") '"' (fun _ => strokeRepl c)
          (replaceAll (str "fill=\"") '"' (fun _ => fillRepl c) s)) ∧
    (∀ a b v₁ v₂ : Str, '"' ∉ v₁ → '"' ∉ v₂ →
      noMatchBefore (str "fill=\"") '"' a
        (str "fill=\"" ++ (v₁ ++ '"' :: (b ++ (str "fill=\"" ++ (v₂ ++ '"' :: []))))) →
      noMatchBefore (str "fill=\"") '"' b (str "fill=\"" ++ (v₂ ++ '"' :: [])) →
      applyColor Weight.fill c
          (a ++ (str "fill=\"" ++ (v₁ ++ '"' :: (b ++ (str "fill=\"" ++ (v₂ ++ '"' :: [])))))) =
        a ++ (fillRepl c ++ (b ++ fillRepl c))) ∧
    (∀ t, noMatchBefore (str "fill=\"") '"' t [] → applyColor Weight.fill c t = t) := by
  refine ⟨?_, ?_, ?_, ?_⟩
  · intro s
    rw [applyColor, if_pos rfl]
  · intro w s hw
    cases w
    case fill => exact absurd rfl hw
    all_goals rfl
  · intro a b v₁ v₂ h1 h2 hna hnb
    rw [applyColor, if_pos rfl, replaceAll_skip hna, replaceAll_match h1,
      replaceAll_skip hnb, replaceAll_match h2]
    rw [show replaceAll (str "fill=\"") '"' (fun _ => fillRepl c) [] = [] from rfl]
    rw [List.append_nil]
  · intro t ht
    rw [applyColor, if_pos rfl]
    exact replaceAll_nomatch ht

/-- C3 witness: a concrete instance of the per-weight color policy. -/
theorem applyColor_weight_policy_witness :
    applyColor Weight.fill (str "red")
        (str "<p " ++ (str "fill=\"" ++ (str "a" ++ '"' :: (str " x " ++
          (str "fill=\"" ++ (str "b" ++ '"' :: [])))))) =
      str "<p " ++ (fillRepl (str "red") ++ (str " x " ++ fillRepl (str "red"))) :=
  (applyColor_weight_policy (str "red")).2.2.1 (str "<p ") (str " x ") (str "a") (str "b")
    (by decide) (by decide) (by decide) (by decide)

/-- C4: with a size supplied, a text without any width= substring has
width and height attributes appended after the attribute list of the
first svg open tag; a text with a width attribute has only the first
width attribute and the first height attribute rewritten, with
everything after each first occurrence (including further width and
height attributes) passed through verbatim, while the fill color
rewrite of applyColor remains global on the same kind of shape. -/
theorem applySize_first_occurrence_policy (sz : Str) :
    (∀ a mid b : Str,
      containsSub (str "width=") (a ++ (str "<svg" ++ (mid ++ '>' :: b))) = false →
      noMatchBefore (str "<svg") '>' a (str "<svg" ++ (mid ++ '>' :: b)) →
      '>' ∉ mid →
      applySize sz (a ++ (str "<svg" ++ (mid ++ '>' :: b))) =
        a ++ ((str "<svg" ++ mid ++ str " width=\"" ++ sz ++ str "\" height=\"" ++ sz ++
          str "\"" ++ str ">") ++ b)) ∧
    (∀ a b d v u : Str, '"' ∉ v → '"' ∉ u →
      noMatchBefore (str "width=\"") '"' a
        (str "width=\"" ++ (v ++ '"' :: (b ++ (str "height=\"" ++ (u ++ '"' :: d))))) →
      noMatchBefore (str "height=\"") '"'
        ((a ++ (str "width=\"" ++ sz ++ str "\"")) ++ b)
        (str "height=\"" ++ (u ++ '"' :: d)) →
      applySize sz (a ++ (str "width=\"" ++ (v ++ '"' :: (b ++ (str "height=\"" ++
          (u ++ '"' :: d)))))) =
        ((a ++ (str "width=\"" ++ sz ++ str "\"")) ++ b) ++
          ((str "height=\"" ++ sz ++ str "\"") ++ d)) ∧
    (∀ c a b v₁ v₂ : Str, '"' ∉ v₁ → '"' ∉ v₂ →
      noMatchBefore (str "fill=\"") '"' a
        (str "fill=\"" ++ (v₁ ++ '"' :: (b ++ (str "fill=\"" ++ (v₂ ++ '"' :: []))))) →
      noMatchBefore (str "fill=\"") '"' b (str "fill=\"" ++ (v₂ ++ '"' :: [])) →
      applyColor Weight.fill c
          (a ++ (str "fill=\"" ++ (v₁ ++ '"' :: (b ++ (str "fill=\"" ++ (v₂ ++ '"' :: [])))))) =
        a ++ (fillRepl c ++ (b ++ fillRepl c))) := by
  refine ⟨?_, ?_, ?_⟩
  · intro a mid b hw hna hmid
    rw [applySize, if_pos hw, replaceFirst_skip hna, replaceFirst_match hmid]
  · intro a b d v u hv hu hna hnh
    have hwsplit : str "width=\"" = str "width=" ++ '"' :: [] := by decide
    have hcontains : containsSub (str "width=")
        (a ++ (str "width=\"" ++ (v ++ '"' :: (b ++ (str "height=\"" ++ (u ++ '"' :: d)))))) =
          true := by
      rw [hwsplit]
      simp only [List.append_assoc]
      exact containsSub_append_mid a (str "width=") _
    rw [applySize, if_neg (by rw [hcontains]; simp),
      replaceFirst_skip hna, replaceFirst_match hv]
    rw [show a ++ ((str "width=\"" ++ sz ++ str "\"") ++ (b ++ (str "height=\"" ++
        (u ++ '"' :: d)))) =
      ((a ++ (str "width=\"" ++ sz ++ str "\"")) ++ b) ++ (str "height=\"" ++
        (u ++ '"' :: d)) from by simp [List.append_assoc]]
    rw [replaceFirst_skip hnh, replaceFirst_match hu]
  · intro c a b v₁ v₂ h1 h2 hna hnb
    rw [applyColor, if_pos rfl, replaceAll_skip hna, replaceAll_match h1,
      replaceAll_skip hnb, replaceAll_match h2]
    rw [show replaceAll (str "fill=\"") '"' (fun _ => fillRepl c) [] = [] from rfl]
    rw [List.append_nil]

/-- C4 witness: a concrete size rewrite where the second width and
height attributes are left untouched. -/
theorem applySize_first_occurrence_policy_witness :
    applySize (str "32") (str "<svg " ++ (str "width=\"" ++ (str "256" ++ '"' :: (str " " ++
        (str "height=\"" ++ (str "256" ++ '"' :: str "><rect width=\"9\"/></svg>")))))) =
      ((str "<svg " ++ (str "width=\"" ++ str "32" ++ str "\"")) ++ str " ") ++
        ((str "height=\"" ++ str "32" ++ str "\"") ++ str "><rect width=\"9\"/></svg>") :=
  (applySize_first_occurrence_policy (str "32")).2.1 (str "<svg ") (str " ")
    (str "><rect width=\"9\"/></svg>") (str "256") (str "256")
    (by decide) (by decide) (by decide) (by decide)

/-- C1 counterexample: the batch handler does not reject a name with a
disallowed character; it silently cleans heart! to heart and the fetch
of the cleaned URL succeeds, so the item yields a success entry rather
than an InvalidArgument failure. -/
theorem batch_cleans_disallowed_counterexample :
    batchItem Weight.regular heartOracle none none render0 (str "heart!") =
      .success (str "heart!") svgBody := by
  decide

/-- C1 amended: in get-icon a name containing a character outside
[a-z0-9-] after trimming and lowercasing fails with the InvalidArgument
name error for every fetch oracle, so no fetch influences the outcome;
in get-multiple-icons the disallowed characters are instead stripped
and the item proceeds, its outcome determined by the fetch of the URL
built from the cleaned name. -/
theorem invalidName_rejection_amended :
    (∀ dw fetch name w color size render,
      (∃ c ∈ jsToLower (jsTrim name), allowedChar c = false) →
      getIcon dw fetch name w color size render = .errorInvalidName) ∧
    (∀ w fetch color size render name body,
      ¬ ((jsTrim name).length = 0) →
      fetch (iconUrl (sanitize name) w) = .ok body →
      batchItem w fetch color size render name =
        .success name (applySizeOpt size render (applyColorOpt w color body))) := by
  constructor
  · intro dw fetch name w color size render h
    rw [getIcon, nameCheck_invalid_of_disallowed h]
  · intro w fetch color size render name body hne hf
    rw [batchItem, if_neg hne]
    dsimp only
    rw [hf]

/-- C1 witness: concrete instances of both amended branches. -/
theorem invalidName_rejection_amended_witness :
    getIcon Weight.regular heartOracle (str "heart!") none none none render0 =
        .errorInvalidName ∧
    batchItem Weight.regular heartOracle none none render0 (str "heart!") =
      .success (str "heart!")
        (applySizeOpt none render0 (applyColorOpt Weight.regular none svgBody)) :=
  ⟨invalidName_rejection_amended.1 Weight.regular heartOracle (str "heart!") none none none
      render0 (by decide),
   invalidName_rejection_amended.2 Weight.regular heartOracle none none render0
      (str "heart!") svgBody (by decide) (by decide)⟩

/-- C2 counterexample: a name consisting of heart with a leading space
has a non-empty trimmed lowercased form made only of allowed
characters, yet get-icon rejects it with the InvalidArgument name
error, because the handler compares the sanitized name against the
untrimmed lowercased input. -/
theorem whitespace_name_rejected_counterexample :
    getIcon Weight.regular heartOracle (str " heart") none none none render0 =
        .errorInvalidName ∧
    jsToLower (jsTrim (str " heart")) = str "heart" ∧
    (str "heart").all allowedChar = true ∧ ¬ (str "heart" = ([] : Str)) := by
  decide

/-- C2 amended: get-icon name validation accepts exactly the inputs
whose lowercased form, without trimming, is non-empty and consists only
of characters in [a-z0-9-]; uppercase letters are therefore cleaned to
lowercase, but a name with leading or trailing whitespace is rejected
even when otherwise clean. -/
theorem name_acceptance_amended (name : Str) :
    nameCheck name = .ok (jsToLower name) ↔
      (jsToLower name ≠ [] ∧ (jsToLower name).all allowedChar = true) :=
  nameCheck_ok_iff name

/-- C2 witness: an uppercase name is cleaned and accepted. -/
theorem name_acceptance_amended_witness :
    nameCheck (str "HeArt") = .ok (jsToLower (str "HeArt")) :=
  (name_acceptance_amended (str "HeArt")).mpr (by decide)

/-- C6 counterexample: the batch handler performs no SVG validation on
an OK body; a body that does not start with the svg root tag is still
recorded as a success entry instead of an InvalidUpstreamContent
error. -/
theorem batch_no_svg_validation_counterexample :
    batchItem Weight.regular (fun _ => FetchOutcome.ok (str "not svg")) none none render0
        (str "heart") = .success (str "heart") (str "not svg") := by
  decide

/-- C6 amended: get-icon turns an OK body whose trimmed text does not
start with the svg root tag into the InvalidUpstreamContent error, but
a get-multiple-icons item records any OK body as a success entry with
no content validation. -/
theorem upstream_content_validation_amended :
    (∀ dw fetch name w color size render body s,
      nameCheck name = .ok s → sizeErr size = false →
      fetch (iconUrl s (Option.getD w dw)) = .ok body →
      List.isPrefixOf (str "<svg") (jsTrim body) = false →
      getIcon dw fetch name w color size render = .errorInvalidContent) ∧
    (∀ w fetch color size render name body,
      ¬ ((jsTrim name).length = 0) →
      fetch (iconUrl (sanitize name) w) = .ok body →
      batchItem w fetch color size render name =
        .success name (applySizeOpt size render (applyColorOpt w color body))) := by
  constructor
  · intro dw fetch name w color size render body s hname hsize hf hpf
    rw [getIcon, hname]
    dsimp only
    rw [if_neg (by simp [hsize])]
    rw [hf]
    dsimp only
    rw [if_pos (by rw [hpf]; simp)]
  · intro w fetch color size render name body hne hf
    rw [batchItem, if_neg hne]
    dsimp only
    rw [hf]

/-- C6 witness: concrete instances of both amended branches, with a
plain-text body. -/
theorem upstream_content_validation_amended_witness :
    getIcon Weight.regular (fun _ => FetchOutcome.ok (str "plain text")) (str "heart")
        none none none render0 = .errorInvalidContent ∧
    batchItem Weight.regular (fun _ => FetchOutcome.ok (str "plain text")) none none render0
        (str "heart") =
      .success (str "heart")
        (applySizeOpt none render0 (applyColorOpt Weight.regular none (str "plain text"))) :=
  ⟨upstream_content_validation_amended.1 Weight.regular
      (fun _ => FetchOutcome.ok (str "plain text")) (str "heart") none none none render0
      (str "plain text") (str "heart") (by decide) (by decide) (by decide) (by decide),
   upstream_content_validation_amended.2 Weight.regular
      (fun _ => FetchOutcome.ok (str "plain text")) none none render0 (str "heart")
      (str "plain text") (by decide) (by decide)⟩

/-- C7: for a non-empty list of at most 50 names, with a size passing
validation, the batch handler succeeds with exactly one entry per name,
each computed independently by the same per-name function, listed in
input order. -/
theorem batch_per_name_entries (dw : Weight) (fetch : Str → FetchOutcome)
    (names : List Str) (w : Option Weight) (color : Option Str) (size : Option ℚ)
    (render : ℚ → Str) (h1 : names ≠ []) (h2 : names.length ≤ 50)
    (h3 : sizeErr size = false) :
    getMultipleIcons dw fetch names w color size render =
        .ok (names.map (batchItem (Option.getD w dw) fetch color size render)) ∧
    (names.map (batchItem (Option.getD w dw) fetch color size render)).length =
        names.length ∧
    (∀ i, ∀ hi : i < names.length,
      (names.map (batchItem (Option.getD w dw) fetch color size render)).get
          ⟨i, by simpa using hi⟩ =
        batchItem (Option.getD w dw) fetch color size render (names.get ⟨i, hi⟩)) := by
  refine ⟨?_, by simp, ?_⟩
  · rw [getMultipleIcons, if_neg (fun h0 => h1 (List.eq_nil_of_length_eq_zero h0)),
      if_neg (by omega), if_neg (by simp [h3])]
  · intro i hi
    simp [List.get_eq_getElem]

/-- C7 witness: a batch with one resolvable and one unresolvable name
yields the two per-name entries in order. -/
theorem batch_per_name_entries_witness :
    getMultipleIcons Weight.regular heartOracle [str "heart", str "nosuch"] none none none
        render0 =
      .ok ([str "heart", str "nosuch"].map
        (batchItem Weight.regular heartOracle none none render0)) :=
  (batch_per_name_entries Weight.regular heartOracle [str "heart", str "nosuch"] none none
      none render0 (by decide) (by decide) (by decide)).1

/-- C10: with color and size both omitted, the transforms are the
identity: the SVG payload of a successful get-icon response, and of a
successful batch entry, is the fetched body character for character. -/
theorem no_transform_identity :
    (∀ dw fetch name w render body s,
      nameCheck name = .ok s →
      fetch (iconUrl s (Option.getD w dw)) = .ok body →
      List.isPrefixOf (str "<svg") (jsTrim body) = true →
      getIcon dw fetch name w none none render = .success body) ∧
    (∀ w fetch render name body,
      ¬ ((jsTrim name).length = 0) →
      fetch (iconUrl (sanitize name) w) = .ok body →
      batchItem w fetch none none render name = .success name body) := by
  constructor
  · intro dw fetch name w render body s hname hf hpf
    rw [getIcon, hname]
    dsimp only
    rw [if_neg (by simp [sizeErr])]
    rw [hf]
    dsimp only
    have hbne : ¬ (body = []) := by
      intro he
      subst he
      exact absurd hpf (by decide)
    rw [if_neg (by rw [hpf]; simp [hbne])]
    rfl
  · intro w fetch render name body hne hf
    rw [batchItem, if_neg hne]
    dsimp only
    rw [hf]
    rfl

/-- C10 witness: fetching the heart icon with no color and no size
returns the upstream body unchanged, in both handlers. -/
theorem no_transform_identity_witness :
    getIcon Weight.regular heartOracle (str "heart") none none none render0 =
        .success svgBody ∧
    batchItem Weight.regular heartOracle none none render0 (str "heart") =
      .success (str "heart") svgBody :=
  ⟨no_transform_identity.1 Weight.regular heartOracle (str "heart") none render0 svgBody
      (str "heart") (by decide) (by decide) (by decide),
   no_transform_identity.2 Weight.regular heartOracle render0 (str "heart") svgBody
      (by decide) (by decide)⟩

/-- The rational five halves, a positive non-integer size below 4096. -/
def qTwoPointFive : ℚ := ⟨5, 2, by norm_num, by norm_num⟩

/-- C8 counterexample: the size check accepts the non-integer 5/2, so
the request proceeds past validation (here to the fetch, which reports
not-found) instead of failing with the InvalidArgument size error. -/
theorem noninteger_size_accepted_counterexample :
    getIcon Weight.regular (fun _ => FetchOutcome.notFound) (str "heart") none none
        (some qTwoPointFive) render0 = .errorNotFound ∧
    qTwoPointFive.den ≠ 1 ∧ ¬ (qTwoPointFive ≤ 0) ∧ ¬ ((4096 : ℚ) < qTwoPointFive) := by
  decide

/-- C8 amended: with a size supplied, both handlers fail with the
InvalidArgument size error exactly when the size is non-positive or
greater than 4096; every number in (0, 4096] proceeds, with no
integrality requirement. -/
theorem size_validation_amended (q : ℚ) :
    (∀ dw fetch name w color render s,
      nameCheck name = .ok s →
      (getIcon dw fetch name w color (some q) render = .errorInvalidSize ↔
        (q ≤ 0 ∨ (4096 : ℚ) < q))) ∧
    (∀ dw fetch names w color render,
      names ≠ ([] : List Str) → names.length ≤ 50 →
      (getMultipleIcons dw fetch names w color (some q) render = .errorInvalidSize ↔
        (q ≤ 0 ∨ (4096 : ℚ) < q))) := by
  have hsz : ¬ (q ≤ 0 ∨ (4096 : ℚ) < q) → sizeErr (some q) = false := by
    intro hq
    push_neg at hq
    rw [sizeErr, decide_eq_false (not_le.mpr hq.1), decide_eq_false (not_lt.mpr hq.2)]
    rfl
  have hsz2 : (q ≤ 0 ∨ (4096 : ℚ) < q) → sizeErr (some q) = true := by
    intro hq
    rw [sizeErr]
    rcases hq with h | h
    · rw [decide_eq_true h]
      simp
    · rw [decide_eq_true h]
      simp
  constructor
  · intro dw fetch name w color render s hname
    constructor
    · intro hres
      by_contra hq
      rw [getIcon, hname] at hres
      dsimp only at hres
      rw [if_neg (by simp [hsz hq])] at hres
      cases hfo : fetch (iconUrl s (Option.getD w dw)) with
      | ok body =>
        rw [hfo] at hres
        dsimp only at hres
        by_cases hc :
            (decide (body = []) || !(List.isPrefixOf (str "<svg") (jsTrim body))) = true
        · rw [if_pos hc] at hres
          cases hres
        · rw [if_neg hc] at hres
          cases hres
      | notFound =>
        rw [hfo] at hres
        cases hres
      | timeout =>
        rw [hfo] at hres
        cases hres
      | transportError m =>
        rw [hfo] at hres
        cases hres
    · intro hq
      rw [getIcon, hname]
      dsimp only
      rw [if_pos (hsz2 hq)]
  · intro dw fetch names w color render h1 h2
    constructor
    · intro hres
      by_contra hq
      rw [getMultipleIcons, if_neg (fun h0 => h1 (List.eq_nil_of_length_eq_zero h0)),
        if_neg (by omega), if_neg (by simp [hsz hq])] at hres
      cases hres
    · intro hq
      rw [getMultipleIcons, if_neg (fun h0 => h1 (List.eq_nil_of_length_eq_zero h0)),
        if_neg (by omega), if_pos (hsz2 hq)]

/-- C8 witness: the boundary characterization applied at the concrete
non-integer size 5/2 in both handlers. -/
theorem size_validation_amended_witness :
    (getIcon Weight.regular heartOracle (str "heart") none none (some qTwoPointFive)
        render0 = .errorInvalidSize ↔
      (qTwoPointFive ≤ 0 ∨ (4096 : ℚ) < qTwoPointFive)) ∧
    (getMultipleIcons Weight.regular heartOracle [str "heart"] none none
        (some qTwoPointFive) render0 = .errorInvalidSize ↔
      (qTwoPointFive ≤ 0 ∨ (4096 : ℚ) < qTwoPointFive)) :=
  ⟨(size_validation_amended qTwoPointFive).1 Weight.regular heartOracle (str "heart") none
      none render0 (str "heart") (by decide),
   (size_validation_amended qTwoPointFive).2 Weight.regular heartOracle [str "heart"] none
      none render0 (by decide) (by decide)⟩
